import Mathlib

/-
Shallow embedding of the srvra-sync core (SrvraEventBus, SrvraStateManager,
SrvraConflictResolver, SrvraDataSync) and proofs about its specification.

JavaScript values are embedded as the inductive type `JsVal`; machine maps
(`Map`) become association lists or explicit functions; `Date.now()` becomes an
explicit `now : Nat` argument; async control flow is embedded either as pure
state-passing (where the code awaits nothing observable) or as a small-step
transition relation (for the backpressure wait loop); recursion that is
unbounded in the source is embedded with an explicit fuel argument, where
`none` means the computation has not terminated within the given fuel.
-/

/-- JS runtime values, as far as the sync core inspects them. -/
inductive JsVal where
  | num (n : Int)
  | str (s : String)
  | bool (b : Bool)
  | undefined
  | arr (elems : List JsVal)
  | obj (fields : List (String × JsVal))

mutual

/-- Structural equality on embedded JS values (the `===`/SameValueZero test on
primitives; structural on containers). -/
def JsVal.beq : JsVal → JsVal → Bool
  | .num a, .num b => a == b
  | .str a, .str b => a == b
  | .bool a, .bool b => a == b
  | .undefined, .undefined => true
  | .arr a, .arr b => JsVal.beqList a b
  | .obj a, .obj b => JsVal.beqFields a b
  | _, _ => false

def JsVal.beqList : List JsVal → List JsVal → Bool
  | [], [] => true
  | x :: xs, y :: ys => JsVal.beq x y && JsVal.beqList xs ys
  | _, _ => false

def JsVal.beqFields : List (String × JsVal) → List (String × JsVal) → Bool
  | [], [] => true
  | (k1, v1) :: xs, (k2, v2) :: ys => k1 == k2 && JsVal.beq v1 v2 && JsVal.beqFields xs ys
  | _, _ => false

end

mutual

def JsVal.eq_of_beq : (a : JsVal) → (b : JsVal) → JsVal.beq a b = true → a = b
  | .num x, .num y, h => by simp [JsVal.beq] at h; simp [h]
  | .str x, .str y, h => by simp [JsVal.beq] at h; simp [h]
  | .bool x, .bool y, h => by simp [JsVal.beq] at h; simp [h]
  | .undefined, .undefined, _ => rfl
  | .arr xs, .arr ys, h => by
      have := JsVal.eqList_of_beqList xs ys (by simpa [JsVal.beq] using h)
      simp [this]
  | .obj xs, .obj ys, h => by
      have := JsVal.eqFields_of_beqFields xs ys (by simpa [JsVal.beq] using h)
      simp [this]

def JsVal.eqList_of_beqList : (a : List JsVal) → (b : List JsVal) →
    JsVal.beqList a b = true → a = b
  | [], [], _ => rfl
  | x :: xs, y :: ys, h => by
      simp [JsVal.beqList] at h
      have h1 := JsVal.eq_of_beq x y h.1
      have h2 := JsVal.eqList_of_beqList xs ys h.2
      simp [h1, h2]

def JsVal.eqFields_of_beqFields : (a : List (String × JsVal)) → (b : List (String × JsVal)) →
    JsVal.beqFields a b = true → a = b
  | [], [], _ => rfl
  | (k1, v1) :: xs, (k2, v2) :: ys, h => by
      simp [JsVal.beqFields] at h
      have h1 := JsVal.eq_of_beq v1 v2 h.1.2
      have h2 := JsVal.eqFields_of_beqFields xs ys h.2
      simp [h.1.1, h1, h2]

end

mutual

def JsVal.beq_rfl : (a : JsVal) → JsVal.beq a a = true
  | .num _ => by simp [JsVal.beq]
  | .str _ => by simp [JsVal.beq]
  | .bool _ => by simp [JsVal.beq]
  | .undefined => rfl
  | .arr xs => by simp [JsVal.beq, JsVal.beqList_rfl xs]
  | .obj xs => by simp [JsVal.beq, JsVal.beqFields_rfl xs]

def JsVal.beqList_rfl : (a : List JsVal) → JsVal.beqList a a = true
  | [] => rfl
  | x :: xs => by simp [JsVal.beqList, JsVal.beq_rfl x, JsVal.beqList_rfl xs]

def JsVal.beqFields_rfl : (a : List (String × JsVal)) → JsVal.beqFields a a = true
  | [] => rfl
  | (_, v) :: xs => by simp [JsVal.beqFields, JsVal.beq_rfl v, JsVal.beqFields_rfl xs]

end

instance : BEq JsVal := ⟨JsVal.beq⟩

instance : LawfulBEq JsVal where
  eq_of_beq h := JsVal.eq_of_beq _ _ h
  rfl := JsVal.beq_rfl _

instance : DecidableEq JsVal := fun a b =>
  decidable_of_iff (JsVal.beq a b = true) ⟨JsVal.eq_of_beq a b, fun h => h ▸ JsVal.beq_rfl a⟩

/-- Insertion into the seen-set of a JS `Set` while it iterates: record each
element the first time it is seen. -/
def seenPush {α : Type} [DecidableEq α] (seen : List α) (l : List α) : List α :=
  match l with
  | [] => seen
  | a :: l => seenPush (if a ∈ seen then seen else a :: seen) l

/-- Worker for `setDedup`: iterate over `l`, keeping the first occurrence of
each element that is not already in `seen` (JS `Set` iteration order). -/
def setDedupAux {α : Type} [DecidableEq α] (seen : List α) : List α → List α
  | [] => []
  | a :: l => if a ∈ seen then setDedupAux seen l else a :: setDedupAux (a :: seen) l

/-- The JS idiom `[...new Set(l)]`: `l` with duplicates removed, keeping the
first occurrence of each element, in first-seen order. -/
def setDedup {α : Type} [DecidableEq α] (l : List α) : List α :=
  setDedupAux [] l

/-- JS `x || d` on an optional boolean: `undefined` and `false` are falsy. -/
def jsOrBool (x : Option Bool) (d : Bool) : Bool :=
  match x with
  | some b => b || d
  | none => d

/-- JS `x || d` on an optional number: `undefined` and `0` are falsy. -/
def jsOrNat (x : Option Nat) (d : Nat) : Nat :=
  match x with
  | some n => if n = 0 then d else n
  | none => d

/-- JS `x || d` on an optional string: `undefined` and `""` are falsy. -/
def jsOrStr (x : Option String) (d : String) : String :=
  match x with
  | some s => if s = "" then d else s
  | none => d

/-- Effect of the trailing `...config` spread on one key of the config object
literal: a key the caller passed overrides the defaulted value computed
earlier in the same literal. -/
def spreadBool (x : Option Bool) (pre : Bool) : Bool := x.getD pre

def spreadNat (x : Option Nat) (pre : Nat) : Nat := x.getD pre

def spreadStr (x : Option String) (pre : String) : String := x.getD pre

/-- Constructor argument of `SrvraStateManager`; `none` models an absent key. -/
structure StateManagerConfigInput where
  historySize : Option Nat := none
  mergeStrategy : Option String := none
  enableVersioning : Option Bool := none
  autoSync : Option Bool := none

structure StateManagerConfig where
  historySize : Nat
  mergeStrategy : String
  enableVersioning : Bool
  autoSync : Bool

/-- `SrvraStateManager.constructor`: the `this.config` object literal, with the
`||` defaults followed by the `...config` spread. -/
def mkStateManagerConfig (c : StateManagerConfigInput) : StateManagerConfig :=
  { historySize := spreadNat c.historySize (jsOrNat c.historySize 50),
    mergeStrategy := spreadStr c.mergeStrategy (jsOrStr c.mergeStrategy "last-write-wins"),
    enableVersioning := spreadBool c.enableVersioning (jsOrBool c.enableVersioning true),
    autoSync := spreadBool c.autoSync (jsOrBool c.autoSync true) }

structure StateUpdate where
  key : String
  value : JsVal
  version : Nat
  timestamp : Nat
  metadata : JsVal
  source : String

structure HistoryRecord where
  update : StateUpdate
  previousValue : Option JsVal

structure StateManager where
  config : StateManagerConfig
  state : String → Option JsVal
  history : List HistoryRecord
  version : Nat

def initStateManager (cfg : StateManagerConfig) : StateManager :=
  { config := cfg, state := fun _ => none, history := [], version := 0 }

/-- `SrvraStateManager.trackHistory`: push the record, then `shift()` once when
the length exceeds `config.historySize`. -/
def trackHistory (cfg : StateManagerConfig) (history : List HistoryRecord)
    (entry : HistoryRecord) : List HistoryRecord :=
  let h := history ++ [entry]
  if h.length > cfg.historySize then h.tail else h

structure SetStateOptions where
  metadata : Option JsVal := none
  source : Option String := none

/-- `SrvraStateManager.setState`: assign the next global version, snapshot the
previous value into history, replace the entry.  Subscriber callbacks observe
the update but do not mutate the store in this embedding. -/
def setState (s : StateManager) (key : String) (value : JsVal)
    (options : SetStateOptions) (now : Nat) : StateManager :=
  let previousValue := s.state key
  let update : StateUpdate :=
    { key := key, value := value, version := s.version + 1, timestamp := now,
      metadata := options.metadata.getD (.obj []), source := options.source.getD "client" }
  { s with
    version := s.version + 1,
    history := trackHistory s.config s.history { update := update, previousValue := previousValue },
    state := fun k => if k = key then some value else s.state k }

structure SetStateCall where
  key : String
  value : JsVal
  options : SetStateOptions
  now : Nat

def runSetStates (s : StateManager) (ops : List SetStateCall) : StateManager :=
  ops.foldl (fun acc op => setState acc op.key op.value op.options op.now) s

structure BusListener where
  backpressure : Bool
  pending : Nat
  filter : Option (JsVal → Bool)

/-- Net effect of `SrvraEventBus.notifyListener` on the pending counter of one
listener for a delivery carrying payload `d`.  With backpressure enabled the
counter is incremented up front (the wait loop does not change it); the
decrement in the `finally` block runs only when the filter check was passed,
because a rejecting filter returns from the method before the `try` block is
entered. -/
def notifyListenerPending (listener : BusListener) (d : JsVal) : Nat :=
  let p1 := if listener.backpressure then listener.pending + 1 else listener.pending
  match listener.filter with
  | some f =>
      if f d then (if listener.backpressure then p1 - 1 else p1) else p1
  | none => if listener.backpressure then p1 - 1 else p1

/-- Control point of one in-flight delivery to a backpressure-enabled listener
inside `SrvraEventBus.notifyListener`. -/
inductive DeliveryPC where
  | start
  | waiting
  | running
  | done
deriving DecidableEq

/-- Shared state of one backpressure-enabled listener: its `pending` counter
and the control points of the deliveries addressed to it. -/
structure BackpressureState where
  pending : Nat
  procs : List DeliveryPC

/-- Small-step interleaving semantics of concurrent `notifyListener` calls for
a single backpressure-enabled listener under threshold `T`
(`config.backpressureThreshold`).

`enterRun`/`enterWait`: the prologue increments `pending`, then either runs on
to the callback (when the incremented counter is within the threshold) or
enters the `waitForCapacity` polling loop.  `wake`: one `checkCapacity` poll
succeeds and the continuation invokes the callback; poll and resumption form
one step because the JS microtask queue is empty between `resolve()` and the
awaiting continuation.  `enterRunRejected`/`wakeRejected`: the listener filter
rejects the payload, so the method returns without entering `try`/`finally`
and without decrementing.  `finish`: the callback settles and the `finally`
block decrements. -/
inductive BPStep (T : Nat) : BackpressureState → BackpressureState → Prop where
  | enterRun (s : BackpressureState) (i : Nat)
      (hpc : s.procs.get? i = some .start) (hcap : s.pending + 1 ≤ T) :
      BPStep T s ⟨s.pending + 1, s.procs.set i .running⟩
  | enterRunRejected (s : BackpressureState) (i : Nat)
      (hpc : s.procs.get? i = some .start) (hcap : s.pending + 1 ≤ T) :
      BPStep T s ⟨s.pending + 1, s.procs.set i .done⟩
  | enterWait (s : BackpressureState) (i : Nat)
      (hpc : s.procs.get? i = some .start) (hcap : T < s.pending + 1) :
      BPStep T s ⟨s.pending + 1, s.procs.set i .waiting⟩
  | wake (s : BackpressureState) (i : Nat)
      (hpc : s.procs.get? i = some .waiting) (hcap : s.pending ≤ T) :
      BPStep T s ⟨s.pending, s.procs.set i .running⟩
  | wakeRejected (s : BackpressureState) (i : Nat)
      (hpc : s.procs.get? i = some .waiting) (hcap : s.pending ≤ T) :
      BPStep T s ⟨s.pending, s.procs.set i .done⟩
  | finish (s : BackpressureState) (i : Nat)
      (hpc : s.procs.get? i = some .running) :
      BPStep T s ⟨s.pending - 1, s.procs.set i .done⟩

mutual

/-- JS string coercion as used by `[a, b].join(...)`, approximated on the value
shapes the core produces. -/
def JsVal.jsToString : JsVal → String
  | .num n => toString n
  | .str s => s
  | .bool b => if b then "true" else "false"
  | .undefined => ""
  | .arr l => JsVal.jsToStringList l
  | .obj _ => "[object Object]"

def JsVal.jsToStringList : List JsVal → String
  | [] => ""
  | [x] => JsVal.jsToString x
  | x :: xs => JsVal.jsToString x ++ "," ++ JsVal.jsToStringList xs

end

/-- One conflict handed to `SrvraConflictResolver.resolveConflict`; optional
fields that the caller may omit are `Option`s, JS `undefined` being `none`. -/
structure Conflict where
  key : Option String := none
  serverValue : JsVal := .undefined
  clientValue : JsVal := .undefined
  serverTimestamp : Option Int := none
  clientTimestamp : Option Int := none
  serverMetadata : JsVal := .undefined
  clientMetadata : JsVal := .undefined
  dataType : Option String := none
  forcedStrategy : Option String := none

structure Resolution where
  value : JsVal
  source : String
  metadata : JsVal

structure ResolverConfigInput where
  defaultStrategy : Option String := none
  maxRetries : Option Nat := none
  enableMergeRules : Option Bool := none
  trackHistory : Option Bool := none
  maxHistoryLength : Option Nat := none
  stringMergeDelimiter : Option String := none

structure ResolverConfig where
  defaultStrategy : String
  maxRetries : Nat
  enableMergeRules : Bool
  trackHistory : Bool
  maxHistoryLength : Option Nat
  stringMergeDelimiter : Option String

/-- `SrvraConflictResolver.constructor`: the `this.config` literal; the four
`||` defaults are followed by the `...config` spread, and the constructor sets
no default at all for `maxHistoryLength` or `stringMergeDelimiter` (they stay
`undefined` unless the caller passed them). -/
def mkResolverConfig (c : ResolverConfigInput) : ResolverConfig :=
  { defaultStrategy := spreadStr c.defaultStrategy (jsOrStr c.defaultStrategy "server-wins"),
    maxRetries := spreadNat c.maxRetries (jsOrNat c.maxRetries 3),
    enableMergeRules := spreadBool c.enableMergeRules (jsOrBool c.enableMergeRules true),
    trackHistory := spreadBool c.trackHistory (jsOrBool c.trackHistory true),
    maxHistoryLength := c.maxHistoryLength,
    stringMergeDelimiter := c.stringMergeDelimiter }

def serverWinsStrategy (c : Conflict) : Resolution :=
  { value := c.serverValue, source := "server", metadata := c.serverMetadata }

def clientWinsStrategy (c : Conflict) : Resolution :=
  { value := c.clientValue, source := "client", metadata := c.clientMetadata }

/-- `lastWriteWinsStrategy`: `serverTime >= clientTime` picks the server;
absent timestamps default to `0` through `|| 0`. -/
def lastWriteWinsStrategy (c : Conflict) : Resolution :=
  if c.clientTimestamp.getD 0 ≤ c.serverTimestamp.getD 0 then serverWinsStrategy c
  else clientWinsStrategy c

/-- `mergeArrays`: `[...new Set([...serverArray, ...clientArray])]`; spreading
a non-array value is embedded as a thrown `TypeError`. -/
def mergeArrays (serverValue clientValue : JsVal) : Except String Resolution :=
  match serverValue, clientValue with
  | .arr serverArray, .arr clientArray =>
      let merged := setDedup (serverArray ++ clientArray)
      .ok { value := .arr merged, source := "merged",
            metadata := .obj
              [("originalLength", .obj [("server", .num (serverArray.length : Int)),
                                        ("client", .num (clientArray.length : Int))]),
               ("mergedLength", .num (merged.length : Int))] }
  | _, _ => .error "TypeError: value is not iterable"

def toObjFields : JsVal → List (String × JsVal)
  | .obj fields => fields
  | _ => []

/-- Assignment of one key in a JS object literal: overwrite in place when the
key exists, append otherwise. -/
def objSet (fields : List (String × JsVal)) (k : String) (v : JsVal) :
    List (String × JsVal) :=
  if fields.any (fun p => p.1 == k) then
    fields.map (fun p => if p.1 == k then (k, v) else p)
  else fields ++ [(k, v)]

def spreadMerge (server client : List (String × JsVal)) : List (String × JsVal) :=
  client.foldl (fun acc p => objSet acc p.1 p.2) server

/-- `mergeObjects`: `{...serverObj, ...clientObj}` with client fields
overriding, plus a `_metadata` stamp. -/
def mergeObjects (now : Nat) (serverValue clientValue : JsVal) : Except String Resolution :=
  let merged := objSet (spreadMerge (toObjFields serverValue) (toObjFields clientValue))
    "_metadata" (.obj [("mergedAt", .num (now : Int)), ("sources", .arr [.str "server", .str "client"])])
  .ok { value := .obj merged, source := "merged",
        metadata := .obj [("fields", .arr (merged.map (fun p => .str p.1)))] }

/-- `mergeStrings`: join server then client value with
`config.stringMergeDelimiter || "\n"`. -/
def mergeStrings (cfg : ResolverConfig) (serverValue clientValue : JsVal) :
    Except String Resolution :=
  let delim := jsOrStr cfg.stringMergeDelimiter "\n"
  let s := serverValue.jsToString
  let c := clientValue.jsToString
  .ok { value := .str (s ++ delim ++ c), source := "merged",
        metadata := .obj [("lengths", .obj [("server", .num (s.length : Int)),
                                            ("client", .num (c.length : Int))])] }

/-- A registered merge rule: the built-ins are bound to `this`, so they see the
live config; `Date.now()` is the explicit `now`. -/
abbrev MergeRuleFn := ResolverConfig → Nat → JsVal → JsVal → Except String Resolution

/-- A registered strategy: sees the live merge-rule registry and config; a
thrown JS error is an `Except.error`. -/
abbrev StrategyFn :=
  List (String × MergeRuleFn) → ResolverConfig → Nat → Conflict → Except String Resolution

/-- `autoMergeStrategy`: fetch the merge rule for the conflict data type and
call it; calling the `undefined` result of a failed lookup throws. -/
def autoMergeStrategy (rules : List (String × MergeRuleFn)) (cfg : ResolverConfig)
    (now : Nat) (c : Conflict) : Except String Resolution :=
  match c.dataType with
  | some dt =>
      match rules.lookup dt with
      | some rule => rule cfg now c.serverValue c.clientValue
      | none => .error "TypeError: mergeRule is not a function"
  | none => .error "TypeError: mergeRule is not a function"

def defaultMergeRules : List (String × MergeRuleFn) :=
  [("array", fun _ _ s c => mergeArrays s c),
   ("object", fun _ now s c => mergeObjects now s c),
   ("string", fun cfg _ s c => mergeStrings cfg s c)]

def defaultStrategies : List (String × StrategyFn) :=
  [("server-wins", fun _ _ _ c => .ok (serverWinsStrategy c)),
   ("client-wins", fun _ _ _ c => .ok (clientWinsStrategy c)),
   ("last-write-wins", fun _ _ _ c => .ok (lastWriteWinsStrategy c)),
   ("auto-merge", fun rules cfg now c => autoMergeStrategy rules cfg now c)]

/-- One record of the resolver history (`trackResolution` pushes these). -/
structure TrackedResolution where
  timestamp : Nat
  strategy : String
  result : Resolution
  conflict : Conflict

structure Resolver where
  config : ResolverConfig
  conflictHistory : List TrackedResolution
  mergeRules : List (String × MergeRuleFn)
  customStrategies : List (String × StrategyFn)

/-- `SrvraConflictResolver.constructor` plus `init`: register the default
strategies always, the default merge rules only when `enableMergeRules`. -/
def mkConflictResolver (input : ResolverConfigInput) : Resolver :=
  let cfg := mkResolverConfig input
  { config := cfg,
    conflictHistory := [],
    mergeRules := if cfg.enableMergeRules then defaultMergeRules else [],
    customStrategies := defaultStrategies }

def registerCustomStrategy (r : Resolver) (name : String) (fn : StrategyFn) : Resolver :=
  { r with customStrategies := (name, fn) :: r.customStrategies.filter (fun p => p.1 != name) }

def determineStrategyOfType (r : Resolver) (c : Conflict) : String :=
  match c.dataType with
  | some dt =>
      if dt != "" && r.mergeRules.any (fun p => p.1 == dt) then "auto-merge"
      else r.config.defaultStrategy
  | none => r.config.defaultStrategy

/-- `determineStrategy`: a truthy `forcedStrategy` wins, else `auto-merge` when
a merge rule is registered for a truthy `dataType`, else the configured
default. -/
def determineStrategy (r : Resolver) (c : Conflict) : String :=
  match c.forcedStrategy with
  | some fs => if fs == "" then determineStrategyOfType r c else fs
  | none => determineStrategyOfType r c

/-- `applyStrategy`: look the strategy up in the registry; an unregistered name
throws `Unknown resolution strategy`. -/
def applyStrategy (r : Resolver) (now : Nat) (strategyName : String) (c : Conflict) :
    Except String Resolution :=
  match r.customStrategies.lookup strategyName with
  | some strategy => strategy r.mergeRules r.config now c
  | none => .error ("Unknown resolution strategy: " ++ strategyName)

/-- `trackResolution`: append to the history when tracking is enabled, then
`shift()` once when `length > config.maxHistoryLength`.  The constructor gives
`maxHistoryLength` no default, so when it was never passed the JS comparison
`length > undefined` is false and nothing is ever evicted. -/
def trackResolution (r : Resolver) (entry : TrackedResolution) : Resolver :=
  if r.config.trackHistory then
    let h := r.conflictHistory ++ [entry]
    let h2 := match r.config.maxHistoryLength with
      | some m => if h.length > m then h.tail else h
      | none => h
    { r with conflictHistory := h2 }
  else r

/-- `resolveConflict`, with an explicit recursion budget.  The retry path calls
`resolveConflict(resolution.originalConflict)`, which rebuilds the resolution
record with `attempts: 0`; `handleResolutionError` therefore compares `1 <
maxRetries` on every round, and only when that fails does it throw `Failed to
resolve conflict after 1 attempts`.  `none` means the recursion has not
terminated within `fuel` nested calls. -/
def resolveConflict (now : Nat) (c : Conflict) :
    Nat → Resolver → Option (Resolver × Except String Resolution)
  | 0, _ => none
  | fuel + 1, r =>
    let strategyName := determineStrategy r c
    match applyStrategy r now strategyName c with
    | .ok result =>
        some (trackResolution r
          { timestamp := now, strategy := strategyName, result := result, conflict := c },
          .ok result)
    | .error _ =>
        if 1 < r.config.maxRetries then resolveConflict now c fuel r
        else some (r, .error "Failed to resolve conflict after 1 attempts")

/-- Run a sequence of `resolveConflict` calls, each with the same recursion
budget, keeping the resolver state of every call that terminated. -/
def runResolutions (r : Resolver) (conflicts : List Conflict) (fuel : Nat) : Resolver :=
  conflicts.foldl (fun acc c =>
    match resolveConflict 0 c fuel acc with
    | some (r2, _) => r2
    | none => acc) r

structure DataSyncConfigInput where
  syncInterval : Option Nat := none
  retryAttempts : Option Nat := none
  batchSize : Option Nat := none
  enableDeltaUpdates : Option Bool := none

structure DataSyncConfig where
  syncInterval : Nat
  retryAttempts : Nat
  batchSize : Nat
  enableDeltaUpdates : Bool

/-- `SrvraDataSync.constructor`: the `this.config` literal, `||` defaults
followed by the `...config` spread. -/
def mkDataSyncConfig (c : DataSyncConfigInput) : DataSyncConfig :=
  { syncInterval := spreadNat c.syncInterval (jsOrNat c.syncInterval 30000),
    retryAttempts := spreadNat c.retryAttempts (jsOrNat c.retryAttempts 3),
    batchSize := spreadNat c.batchSize (jsOrNat c.batchSize 100),
    enableDeltaUpdates := spreadBool c.enableDeltaUpdates (jsOrBool c.enableDeltaUpdates true) }

structure BusEvent where
  name : String
  data : JsVal

/-- `this.syncStats` as assigned by `handleSyncComplete`; the fields hold
whatever JS values `data` carried. -/
structure SyncStats where
  lastSuccessfulSync : JsVal
  changesProcessed : JsVal
  conflictsResolved : Int

structure DataSyncState where
  isSyncing : Bool
  lastSyncTimestamp : JsVal
  syncQueue : List JsVal
  syncStats : Option SyncStats

structure SyncChange where
  key : String
  value : JsVal

structure SyncResults where
  success : List JsVal
  conflicts : List JsVal
  errors : List JsVal

/-- What the environment supplies to one sync cycle: the dirty entries that
`collectChanges` returns, and the combined outcome of `processBatches` and
everything after it inside the `try` block (`Except.error` embeds any thrown
error, e.g. the call to the undefined `handleSyncResults`). -/
structure SyncEnv where
  changes : List SyncChange
  batchOutcome : Except String SyncResults

inductive SyncOutcome where
  | skipped
  | noChanges
  | completed
  | errored
deriving DecidableEq

/-- The `sync-complete` event published at the end of a successful cycle: note
`changes` carries `changes.length`, a number, and `conflicts` carries the
accumulated array. -/
def syncCompleteEvent (now : Nat) (changeCount : Nat) (conflicts : List JsVal) : BusEvent :=
  { name := "sync-complete",
    data := .obj [("timestamp", .num (now : Int)), ("changes", .num (changeCount : Int)),
                  ("conflicts", .arr conflicts)] }

def syncErrorEvent (now : Nat) (e : String) : BusEvent :=
  { name := "sync-error", data := .obj [("error", .str e), ("timestamp", .num (now : Int))] }

/-- `SrvraDataSync.sync`: the `isSyncing` reentrancy guard and the
`try`/`catch`/`finally` shape; the `finally` clause clears `isSyncing` on the
no-changes early return, the success path and the error path alike.  Returns
the new state, the events the call itself published, and which exit path was
taken. -/
def sync (s : DataSyncState) (env : SyncEnv) (now : Nat) :
    DataSyncState × List BusEvent × SyncOutcome :=
  if s.isSyncing then (s, [], .skipped)
  else
    match env.changes with
    | [] => ({ s with isSyncing := false }, [], .noChanges)
    | _ =>
      match env.batchOutcome with
      | .ok results =>
          ({ s with isSyncing := false, lastSyncTimestamp := .num (now : Int) },
           [syncCompleteEvent now env.changes.length results.conflicts], .completed)
      | .error e =>
          ({ s with isSyncing := false }, [syncErrorEvent now e], .errored)

/-- JS property read `v.k` on an embedded value (`undefined` when absent). -/
def getField (v : JsVal) (k : String) : JsVal :=
  match v with
  | .obj fields => (fields.lookup k).getD .undefined
  | _ => .undefined

/-- The `.length` read `handleSyncComplete` performs on `data.conflicts`. -/
def jsLength : JsVal → Except String Int
  | .arr l => .ok (l.length : Int)
  | .str s => .ok (s.length : Int)
  | _ => .error "TypeError: cannot read length"

/-- The queue-pruning statement of `handleSyncComplete`:
`this.syncQueue.filter(item => !data.changes.some(change => change.key === item.key))`.
`Array.prototype.filter` invokes its callback only when the queue is nonempty,
and the callback immediately calls `.some` on `data.changes`, which throws a
`TypeError` unless `data.changes` is an array. -/
def pruneSyncQueue (queue : List JsVal) (changes : JsVal) : Except String (List JsVal) :=
  match queue with
  | [] => .ok []
  | _ =>
    match changes with
    | .arr l =>
        .ok (queue.filter (fun item =>
          !(l.any (fun change => getField change "key" == getField item "key"))))
    | _ => .error "TypeError: data.changes.some is not a function"

/-- `SrvraDataSync.handleSyncComplete`, run against a state manager that (like
`SrvraStateManager`) defines no `setMetadata` method.  Returns the state after
the statements that executed, the events the handler published, and the JS
error that terminated it, if any. -/
def handleSyncComplete (s : DataSyncState) (data : JsVal) :
    DataSyncState × List BusEvent × Option String :=
  let s0 := { s with lastSyncTimestamp := getField data "timestamp" }
  match jsLength (getField data "conflicts") with
  | .error e => (s0, [], some e)
  | .ok conflictCount =>
    let s1 := { s0 with
      syncStats := some
        { lastSuccessfulSync := getField data "timestamp",
          changesProcessed := getField data "changes",
          conflictsResolved := conflictCount } }
    match pruneSyncQueue s1.syncQueue (getField data "changes") with
    | .error e => (s1, [], some e)
    | .ok queue =>
        ({ s1 with syncQueue := queue }, [],
         some "TypeError: this.stateManager.setMetadata is not a function")

/-- The resolver `new SrvraConflictResolver()` builds with an empty config. -/
def defaultResolver : Resolver := mkConflictResolver {}

/-- A conflict forcing a strategy name that is not in the registry. -/
def bogusConflict : Conflict := { forcedStrategy := some "bogus" }

/-- A conflict with no data type and no forced strategy: resolved by the
default `server-wins` strategy. -/
def plainConflict : Conflict := {}

/-- A conflict whose two timestamps are equal. -/
def tieConflict : Conflict :=
  { serverTimestamp := some 5, clientTimestamp := some 5, serverValue := .num 1, clientValue := .num 2 }

/-- A backpressure-enabled listener whose filter rejects every payload. -/
def rejectAllListener : BusListener :=
  { backpressure := true, pending := 0, filter := some (fun _ => false) }

/-- A data-sync instance that is not currently syncing. -/
def idleSyncState : DataSyncState :=
  { isSyncing := false, lastSyncTimestamp := .undefined, syncQueue := [], syncStats := none }

/-- A data-sync instance in the middle of a cycle. -/
def busySyncState : DataSyncState := { idleSyncState with isSyncing := true }

/-- A cycle environment with one dirty change and a clean transport reply. -/
def oneChangeEnv : SyncEnv :=
  { changes := [{ key := "x", value := .num 1 }],
    batchOutcome := .ok { success := [], conflicts := [], errors := [] } }

/-- The history record a default-configured resolver appends when it resolves
`plainConflict` at time `0`. -/
def plainEntry : TrackedResolution :=
  { timestamp := 0, strategy := "server-wins", result := serverWinsStrategy plainConflict, conflict := plainConflict }

/-- The expected `syncStats` record after `handleSyncComplete` reads the
payload of `syncCompleteEvent now changeCount conflicts`. -/
def recordedSyncStats (now changeCount : Nat) (conflicts : List JsVal) : SyncStats :=
  { lastSuccessfulSync := .num (now : Int), changesProcessed := .num (changeCount : Int),
    conflictsResolved := (conflicts.length : Int) }

theorem mem_setDedupAux {α : Type} [DecidableEq α] (x : α) (seen l : List α) :
    x ∈ setDedupAux seen l ↔ x ∈ l ∧ x ∉ seen := by
  induction l generalizing seen with
  | nil => simp [setDedupAux]
  | cons a l ih =>
    by_cases ha : a ∈ seen
    · rw [setDedupAux, if_pos ha, ih]
      by_cases hxa : x = a
      · subst hxa; simp [ha]
      · simp [hxa]
    · rw [setDedupAux, if_neg ha]
      simp only [List.mem_cons, ih]
      by_cases hxa : x = a
      · subst hxa; simp [ha]
      · simp [hxa]

theorem nodup_setDedupAux {α : Type} [DecidableEq α] (seen l : List α) :
    (setDedupAux seen l).Nodup := by
  induction l generalizing seen with
  | nil => simp [setDedupAux]
  | cons a l ih =>
    by_cases ha : a ∈ seen
    · rw [setDedupAux, if_pos ha]; exact ih seen
    · rw [setDedupAux, if_neg ha]
      refine List.nodup_cons.mpr ⟨?_, ih (a :: seen)⟩
      rw [mem_setDedupAux]
      simp

theorem setDedupAux_eq_self {α : Type} [DecidableEq α] (seen l : List α)
    (hn : l.Nodup) (hd : ∀ x ∈ l, x ∉ seen) : setDedupAux seen l = l := by
  induction l generalizing seen with
  | nil => simp [setDedupAux]
  | cons a l ih =>
    have ha : a ∉ seen := hd a (List.mem_cons_self a l)
    rw [setDedupAux, if_neg ha]
    rcases List.nodup_cons.mp hn with ⟨hal, hln⟩
    congr 1
    apply ih _ hln
    intro x hx hmem
    rcases List.mem_cons.mp hmem with rfl | hxs
    · exact hal hx
    · exact hd x (List.mem_cons_of_mem _ hx) hxs

theorem setDedupAux_append {α : Type} [DecidableEq α] (seen l t : List α) :
    setDedupAux seen (l ++ t) = setDedupAux seen l ++ setDedupAux (seenPush seen l) t := by
  induction l generalizing seen with
  | nil => simp [setDedupAux, seenPush]
  | cons a l ih =>
    by_cases ha : a ∈ seen
    · rw [List.cons_append, setDedupAux, if_pos ha, setDedupAux, if_pos ha,
        seenPush, if_pos ha, ih]
    · rw [List.cons_append, setDedupAux, if_neg ha, setDedupAux, if_neg ha,
        seenPush, if_neg ha, ih, List.cons_append]

theorem mem_seenPush {α : Type} [DecidableEq α] (x : α) (seen l : List α) :
    x ∈ seenPush seen l ↔ x ∈ seen ∨ x ∈ l := by
  induction l generalizing seen with
  | nil => simp [seenPush]
  | cons a l ih =>
    rw [seenPush]
    by_cases ha : a ∈ seen
    · rw [if_pos ha, ih]
      by_cases hxa : x = a
      · subst hxa; simp [ha]
      · simp [hxa]
    · rw [if_neg ha, ih]
      by_cases hxa : x = a
      · subst hxa; simp
      · simp [hxa]

theorem setDedupAux_congr_seen {α : Type} [DecidableEq α] (l : List α) (s1 s2 : List α)
    (h : ∀ x, x ∈ s1 ↔ x ∈ s2) : setDedupAux s1 l = setDedupAux s2 l := by
  induction l generalizing s1 s2 with
  | nil => simp [setDedupAux]
  | cons a l ih =>
    by_cases ha : a ∈ s1
    · rw [setDedupAux, if_pos ha, setDedupAux, if_pos ((h a).mp ha)]
      exact ih s1 s2 h
    · have ha2 : a ∉ s2 := fun hx => ha ((h a).mpr hx)
      rw [setDedupAux, if_neg ha, setDedupAux, if_neg ha2]
      congr 1
      apply ih
      intro x
      simp only [List.mem_cons, h x]

theorem setDedupAux_eq_nil {α : Type} [DecidableEq α] (seen t : List α)
    (h : ∀ x ∈ t, x ∈ seen) : setDedupAux seen t = [] := by
  induction t generalizing seen with
  | nil => simp [setDedupAux]
  | cons a t ih =>
    rw [setDedupAux, if_pos (h a (List.mem_cons_self a t))]
    exact ih seen (fun x hx => h x (List.mem_cons_of_mem _ hx))

theorem mem_setDedup {α : Type} [DecidableEq α] (x : α) (l : List α) :
    x ∈ setDedup l ↔ x ∈ l := by
  rw [setDedup, mem_setDedupAux]
  simp

theorem nodup_setDedup {α : Type} [DecidableEq α] (l : List α) : (setDedup l).Nodup :=
  nodup_setDedupAux [] l

theorem setDedup_append {α : Type} [DecidableEq α] (l t : List α) :
    setDedup (l ++ t) = setDedup l ++ setDedupAux l t := by
  rw [setDedup, setDedupAux_append, setDedup]
  congr 1
  apply setDedupAux_congr_seen
  intro x
  rw [mem_seenPush]
  simp

theorem setDedup_eq_self {α : Type} [DecidableEq α] (l : List α) (h : l.Nodup) :
    setDedup l = l :=
  setDedupAux_eq_self [] l h (by simp)

/-- Claim C7: for all arrays `A` and `B`, the auto-merge array rule returns the
set-union of `A` and `B` preserving first-seen order (server elements first,
then the client elements not already present), and it is idempotent: merging
the merged value `R` with `B` again yields `R` unchanged. -/
theorem mergeArrays_union_order_idem (A B : List JsVal) :
    (mergeArrays (.arr A) (.arr B)).map Resolution.value
        = Except.ok (.arr (setDedup (A ++ B))) ∧
    setDedup (A ++ B) = setDedup A ++ setDedupAux A B ∧
    (∀ x, x ∈ setDedup (A ++ B) ↔ x ∈ A ∨ x ∈ B) ∧
    (mergeArrays (.arr (setDedup (A ++ B))) (.arr B)).map Resolution.value
        = Except.ok (.arr (setDedup (A ++ B))) := by
  have hmem : ∀ x, x ∈ setDedup (A ++ B) ↔ x ∈ A ∨ x ∈ B := by
    intro x
    rw [mem_setDedup]
    simp
  refine ⟨rfl, setDedup_append A B, hmem, ?_⟩
  have hsub : ∀ x ∈ B, x ∈ setDedup (A ++ B) := by
    intro x hx
    exact (hmem x).mpr (Or.inr hx)
  have h1 : setDedup (setDedup (A ++ B) ++ B)
      = setDedup (setDedup (A ++ B)) ++ setDedupAux (setDedup (A ++ B)) B :=
    setDedup_append _ _
  rw [show (mergeArrays (.arr (setDedup (A ++ B))) (.arr B)).map Resolution.value
      = Except.ok (.arr (setDedup (setDedup (A ++ B) ++ B))) from rfl]
  rw [h1, setDedupAux_eq_nil _ _ hsub, setDedup_eq_self _ (nodup_setDedup _),
    List.append_nil]

theorem trackHistory_length_le (cfg : StateManagerConfig) (history : List HistoryRecord)
    (entry : HistoryRecord) (h : history.length ≤ cfg.historySize) :
    (trackHistory cfg history entry).length ≤ cfg.historySize := by
  simp only [trackHistory]
  split
  · simp only [List.length_tail, List.length_append, List.length_singleton]
    omega
  · next hc =>
      simp only [List.length_append, List.length_singleton, gt_iff_lt, not_lt] at hc ⊢
      omega

theorem setState_version (s : StateManager) (key : String) (value : JsVal)
    (options : SetStateOptions) (now : Nat) :
    (setState s key value options now).version = s.version + 1 := rfl

theorem setState_config (s : StateManager) (key : String) (value : JsVal)
    (options : SetStateOptions) (now : Nat) :
    (setState s key value options now).config = s.config := rfl

theorem runSetStates_version (s : StateManager) (ops : List SetStateCall) :
    (runSetStates s ops).version = s.version + ops.length := by
  induction ops generalizing s with
  | nil => simp [runSetStates]
  | cons op ops ih =>
    show (runSetStates (setState s op.key op.value op.options op.now) ops).version = _
    rw [ih, setState_version]
    simp only [List.length_cons]
    omega

theorem runSetStates_history_le (ops : List SetStateCall) (s : StateManager)
    (h : s.history.length ≤ s.config.historySize) :
    (runSetStates s ops).history.length ≤ s.config.historySize := by
  induction ops generalizing s with
  | nil => exact h
  | cons op ops ih =>
    show (runSetStates (setState s op.key op.value op.options op.now) ops).history.length ≤ _
    rw [show s.config = (setState s op.key op.value op.options op.now).config from rfl]
    apply ih
    rw [setState_config]
    exact trackHistory_length_le s.config s.history _ h

/-- Claim C1: for every sequence of `setState` calls on one `SrvraStateManager`
instance, each call increments the store-scoped version counter by exactly one
(one global counter across all keys, never reused), and after every call
`history.length <= config.historySize`. -/
theorem setState_version_and_history_bound (cfg : StateManagerConfig)
    (ops : List SetStateCall) :
    (runSetStates (initStateManager cfg) ops).version = ops.length ∧
    (runSetStates (initStateManager cfg) ops).history.length ≤ cfg.historySize ∧
    ∀ op : SetStateCall,
      (runSetStates (initStateManager cfg) (ops ++ [op])).version
        = (runSetStates (initStateManager cfg) ops).version + 1 := by
  refine ⟨?_, ?_, ?_⟩
  · rw [runSetStates_version]
    simp [initStateManager]
  · exact runSetStates_history_le ops (initStateManager cfg) (by simp [initStateManager])
  · intro op
    rw [runSetStates_version, runSetStates_version]
    simp [initStateManager]

theorem spreadBool_jsOrBool_true (x : Option Bool) :
    spreadBool x (jsOrBool x true) = x.getD true := by
  cases x <;> simp [spreadBool, jsOrBool]

/-- Claim C10 counterexample: the `|| true` defaults are overridden by the
trailing `...config` spread, so an explicit `false` in the constructor input
does make the final config value `false` (and so does disable the feature),
contradicting the claim at these concrete inputs. -/
theorem orTrue_defaults_counterexample :
    (mkResolverConfig { enableMergeRules := some false }).enableMergeRules = false ∧
    (mkResolverConfig { trackHistory := some false }).trackHistory = false ∧
    (mkStateManagerConfig { enableVersioning := some false }).enableVersioning = false ∧
    (mkStateManagerConfig { autoSync := some false }).autoSync = false ∧
    (mkDataSyncConfig { enableDeltaUpdates := some false }).enableDeltaUpdates = false :=
  ⟨rfl, rfl, rfl, rfl, rfl⟩

/-- Claim C10 (amended): because the trailing `...config` spread overrides the
`||`-defaulted entries of the config literal, each boolean option equals the
caller-passed value whenever the key is present (an explicit `false` therefore
disables the feature), and equals `true` only when the key is omitted. -/
theorem orTrue_defaults_spread_override (i1 : ResolverConfigInput)
    (i2 : StateManagerConfigInput) (i3 : DataSyncConfigInput) :
    (mkResolverConfig i1).enableMergeRules = i1.enableMergeRules.getD true ∧
    (mkResolverConfig i1).trackHistory = i1.trackHistory.getD true ∧
    (mkStateManagerConfig i2).enableVersioning = i2.enableVersioning.getD true ∧
    (mkStateManagerConfig i2).autoSync = i2.autoSync.getD true ∧
    (mkDataSyncConfig i3).enableDeltaUpdates = i3.enableDeltaUpdates.getD true := by
  refine ⟨?_, ?_, ?_, ?_, ?_⟩ <;>
    simp [mkResolverConfig, mkStateManagerConfig, mkDataSyncConfig, spreadBool_jsOrBool_true]

/-- Claim C8: for every conflict whose `serverTimestamp` equals its
`clientTimestamp`, the last-write-wins strategy resolves to the server value
(ties always favor the server), returning a resolution with source
`"server"`. -/
theorem lastWriteWins_tie_server (c : Conflict)
    (h : c.serverTimestamp = c.clientTimestamp) :
    lastWriteWinsStrategy c = serverWinsStrategy c ∧
    (lastWriteWinsStrategy c).source = "server" := by
  have hle : c.clientTimestamp.getD 0 ≤ c.serverTimestamp.getD 0 := by rw [h]
  rw [lastWriteWinsStrategy, if_pos hle]
  exact ⟨rfl, rfl⟩

/-- Claim C8 witness: a concrete tied conflict resolved to the server value. -/
theorem lastWriteWins_tie_server_witness :
    lastWriteWinsStrategy tieConflict = serverWinsStrategy tieConflict ∧
    (lastWriteWinsStrategy tieConflict).source = "server" :=
  lastWriteWins_tie_server tieConflict rfl

/-- Claim C9: for every backpressure-enabled listener whose filter rejects the
payload, the delivery increments the pending counter and never decrements it
(the decrement runs only on the callback path), leaving the counter higher by
one. -/
theorem notifyListener_filter_reject_leak (l : BusListener) (d : JsVal) (f : JsVal → Bool)
    (hb : l.backpressure = true) (hf : l.filter = some f) (hrej : f d = false) :
    notifyListenerPending l d = l.pending + 1 := by
  simp [notifyListenerPending, hb, hf, hrej]

/-- Claim C9 witness: a concrete filter-rejected delivery leaves the counter
raised by one. -/
theorem notifyListener_filter_reject_leak_witness :
    notifyListenerPending rejectAllListener (.num 7) = 1 :=
  notifyListener_filter_reject_leak rejectAllListener (.num 7) (fun _ => false) rfl rfl rfl

/-- Claim C3: for every backpressure-enabled listener and every interleaving of
deliveries on one `SrvraEventBus`, at the moment a delivery invokes the
listener callback (a step into the `running` point), the listener pending
count does not exceed `config.backpressureThreshold`: the bus waits until the
count is within the threshold before invoking, counts the delivery while it is
in flight, and decrements when the delivery completes. -/
theorem backpressure_invocation_bound (T : Nat) (s s2 : BackpressureState) (i : Nat)
    (hstep : BPStep T s s2)
    (hbefore : s.procs.get? i ≠ some DeliveryPC.running)
    (hafter : s2.procs.get? i = some DeliveryPC.running) :
    s2.pending ≤ T := by
  cases hstep with
  | enterRun j hpc hcap => exact hcap
  | enterRunRejected j hpc hcap => exact hcap
  | enterWait j hpc hcap =>
      exfalso
      by_cases hij : j = i
      · subst hij
        obtain ⟨hlt, -⟩ := List.get?_eq_some.mp hpc
        rw [List.get?_set_eq_of_lt _ hlt] at hafter
        exact DeliveryPC.noConfusion (Option.some.inj hafter)
      · rw [List.get?_set_ne _ _ hij] at hafter
        exact hbefore hafter
  | wake j hpc hcap => exact hcap
  | wakeRejected j hpc hcap => exact hcap
  | finish j hpc =>
      exfalso
      by_cases hij : j = i
      · subst hij
        obtain ⟨hlt, -⟩ := List.get?_eq_some.mp hpc
        rw [List.get?_set_eq_of_lt _ hlt] at hafter
        exact DeliveryPC.noConfusion (Option.some.inj hafter)
      · rw [List.get?_set_ne _ _ hij] at hafter
        exact hbefore hafter

/-- Claim C3 witness: with threshold `1`, a single delivery entering its
callback observes a pending count within the threshold. -/
theorem backpressure_invocation_bound_witness :
    (BackpressureState.mk 1 [DeliveryPC.running]).pending ≤ 1 :=
  backpressure_invocation_bound 1 ⟨0, [DeliveryPC.start]⟩ ⟨1, [DeliveryPC.running]⟩ 0
    (BPStep.enterRun ⟨0, [DeliveryPC.start]⟩ 0 rfl (by decide)) (by decide) rfl

/-- Claim C4: at most one sync cycle is active on a `SrvraDataSync` instance:
`sync()` during a cycle is a silent no-op that publishes nothing, and the
`isSyncing` busy-guard is cleared on every exit path of `sync()` (success,
no-changes early return, partial failure, thrown error), so a later call is
never permanently locked out. -/
theorem sync_guard_no_reentry_and_release (s : DataSyncState) (env : SyncEnv) (now : Nat) :
    (s.isSyncing = true → sync s env now = (s, [], SyncOutcome.skipped)) ∧
    (s.isSyncing = false → ((sync s env now).1).isSyncing = false) := by
  constructor
  · intro h
    simp [sync, h]
  · intro h
    rcases hc : env.changes with _ | ⟨c, cs⟩
    · simp [sync, h, hc]
    · rcases hb : env.batchOutcome with e | results
      · simp [sync, h, hc, hb]
      · simp [sync, h, hc, hb]

/-- Claim C4 witness: a reentrant call is a no-op with no events, and a normal
call leaves the guard cleared. -/
theorem sync_guard_no_reentry_and_release_witness :
    sync busySyncState oneChangeEnv 0 = (busySyncState, [], SyncOutcome.skipped) ∧
    ((sync idleSyncState oneChangeEnv 0).1).isSyncing = false :=
  ⟨(sync_guard_no_reentry_and_release busySyncState oneChangeEnv 0).1 rfl,
   (sync_guard_no_reentry_and_release idleSyncState oneChangeEnv 0).2 rfl⟩

/-- Claim C5 (code-bug evidence): `sync()` publishes `sync-complete` with
`changes` holding the number `changes.length`, but `handleSyncComplete` calls
`data.changes.some(...)` (an array method) while pruning the queue, and then
`this.stateManager.setMetadata(...)`, which `SrvraStateManager` does not
define.  For every payload the publisher produces, the handler records the
statistics and then throws a `TypeError`: the sync queue is never pruned, the
store metadata is never stamped, and no follow-up event is published. -/
theorem handleSyncComplete_throws_on_sync_payload (s : DataSyncState)
    (now changeCount : Nat) (conflicts : List JsVal) :
    (handleSyncComplete s (syncCompleteEvent now changeCount conflicts).data).2.2
        = some (if s.syncQueue.isEmpty
                then "TypeError: this.stateManager.setMetadata is not a function"
                else "TypeError: data.changes.some is not a function") ∧
    (handleSyncComplete s (syncCompleteEvent now changeCount conflicts).data).1.syncQueue
        = s.syncQueue ∧
    (handleSyncComplete s (syncCompleteEvent now changeCount conflicts).data).2.1 = [] ∧
    (handleSyncComplete s (syncCompleteEvent now changeCount conflicts).data).1.syncStats
        = some (recordedSyncStats now changeCount conflicts) := by
  have h1 : getField (syncCompleteEvent now changeCount conflicts).data "conflicts"
      = .arr conflicts := rfl
  have h2 : getField (syncCompleteEvent now changeCount conflicts).data "changes"
      = .num (changeCount : Int) := rfl
  have h3 : getField (syncCompleteEvent now changeCount conflicts).data "timestamp"
      = .num (now : Int) := rfl
  rcases hq : s.syncQueue with _ | ⟨q, qs⟩
  · refine ⟨?_, ?_, ?_, ?_⟩ <;>
      simp [handleSyncComplete, h1, h2, h3, jsLength, pruneSyncQueue, hq, recordedSyncStats]
  · refine ⟨?_, ?_, ?_, ?_⟩ <;>
      simp [handleSyncComplete, h1, h2, h3, jsLength, pruneSyncQueue, hq, recordedSyncStats]

/-- Claim C2 (code-bug evidence): when the selected strategy is not registered
or throws on every attempt, `resolveConflict` never terminates for any
`maxRetries >= 2` (the default is 3): the retry path rebuilds the resolution
record with `attempts: 0`, so `handleResolutionError` always sees `1 <
maxRetries` and recurses again.  No fuel suffices, so no resolution-failure
error is ever raised and the claimed `maxRetries` bound never takes effect. -/
theorem resolveConflict_retry_never_terminates (r : Resolver) (now : Nat) (c : Conflict)
    (hretry : 2 ≤ r.config.maxRetries)
    (herr : ∀ res : Resolution,
      applyStrategy r now (determineStrategy r c) c ≠ Except.ok res) :
    ∀ fuel : Nat, resolveConflict now c fuel r = none := by
  intro fuel
  induction fuel with
  | zero => rfl
  | succ fuel ih =>
    simp only [resolveConflict]
    rcases hA : applyStrategy r now (determineStrategy r c) c with e | res
    · rw [if_pos (by omega)]
      exact ih
    · exact absurd hA (herr res)

/-- Claim C2 witness: a conflict forcing the unregistered strategy `bogus` on a
default resolver (`maxRetries = 3`) exhausts a budget of 100 nested calls
without returning or throwing. -/
theorem resolveConflict_retry_never_terminates_witness :
    resolveConflict 0 bogusConflict 100 defaultResolver = none :=
  resolveConflict_retry_never_terminates defaultResolver 0 bogusConflict (by decide)
    (fun res h => by
      rw [show applyStrategy defaultResolver 0
            (determineStrategy defaultResolver bogusConflict) bogusConflict
          = Except.error ("Unknown resolution strategy: " ++ "bogus") from rfl] at h
      exact Except.noConfusion h) 100

theorem runResolutions_cons (r : Resolver) (c : Conflict) (cs : List Conflict) (fuel : Nat) :
    runResolutions r (c :: cs) fuel
      = runResolutions
          (match resolveConflict 0 c fuel r with
           | some (r2, _) => r2
           | none => r) cs fuel := rfl

theorem runResolutions_default_growth (h : List TrackedResolution) (n : Nat) :
    (runResolutions { defaultResolver with conflictHistory := h }
        (List.replicate n plainConflict) 1).conflictHistory.length = h.length + n := by
  induction n generalizing h with
  | zero => simp [runResolutions]
  | succ n ih =>
    rw [show runResolutions { defaultResolver with conflictHistory := h }
          (List.replicate (n + 1) plainConflict) 1
        = runResolutions { defaultResolver with conflictHistory := h ++ [plainEntry] }
          (List.replicate n plainConflict) 1 from rfl]
    rw [ih (h ++ [plainEntry])]
    simp only [List.length_append, List.length_singleton]
    omega

/-- Claim C6 counterexample: a resolver built with the constructor defaults has
history tracking enabled but no `maxHistoryLength` at all (the documented
config surface has no such key and the constructor supplies no default), so
`length > undefined` is always false and the resolution history admits no
bound whatsoever. -/
theorem resolutionHistory_unbounded_by_default :
    ¬ ∃ B : Nat, ∀ n : Nat,
      (runResolutions defaultResolver (List.replicate n plainConflict) 1).conflictHistory.length
        ≤ B := by
  rintro ⟨B, hB⟩
  have hlen : (runResolutions defaultResolver
      (List.replicate (B + 1) plainConflict) 1).conflictHistory.length = B + 1 := by
    have h := runResolutions_default_growth [] (B + 1)
    simpa using h
  have := hB (B + 1)
  omega

theorem trackResolution_config (r : Resolver) (entry : TrackedResolution) :
    (trackResolution r entry).config = r.config := by
  simp only [trackResolution]
  split <;> rfl

theorem trackResolution_length_le (r : Resolver) (entry : TrackedResolution) (m : Nat)
    (hm : r.config.maxHistoryLength = some m) (h : r.conflictHistory.length ≤ m) :
    (trackResolution r entry).conflictHistory.length ≤ m := by
  simp only [trackResolution, hm]
  split
  · split
    · simp only [List.length_tail, List.length_append, List.length_singleton]
      omega
    · next hle =>
        simp only [List.length_append, List.length_singleton, gt_iff_lt, not_lt] at hle ⊢
        omega
  · exact h

theorem resolveConflict_preserves_bound (now : Nat) (c : Conflict) (m : Nat)
    (fuel : Nat) (r : Resolver) (hm : r.config.maxHistoryLength = some m)
    (h : r.conflictHistory.length ≤ m) :
    ∀ r2 out, resolveConflict now c fuel r = some (r2, out) →
      r2.conflictHistory.length ≤ m ∧ r2.config = r.config := by
  induction fuel with
  | zero =>
      intro r2 out hres
      exact absurd hres (by simp [resolveConflict])
  | succ fuel ih =>
      intro r2 out hres
      simp only [resolveConflict] at hres
      rcases hA : applyStrategy r now (determineStrategy r c) c with e | res
      · rw [hA] at hres
        by_cases hr : 1 < r.config.maxRetries
        · rw [if_pos hr] at hres
          exact ih r2 out hres
        · rw [if_neg hr] at hres
          have hp := Option.some.inj hres
          have hr2 : r = r2 := congrArg Prod.fst hp
          subst hr2
          exact ⟨h, rfl⟩
      · rw [hA] at hres
        have hp := Option.some.inj hres
        have hr2 : trackResolution r ⟨now, determineStrategy r c, res, c⟩ = r2 :=
          congrArg Prod.fst hp
        subst hr2
        exact ⟨trackResolution_length_le r _ m hm h, trackResolution_config r _⟩

theorem runResolutions_preserves_bound (conflicts : List Conflict) (fuel : Nat) (m : Nat)
    (r : Resolver) (hm : r.config.maxHistoryLength = some m)
    (h : r.conflictHistory.length ≤ m) :
    (runResolutions r conflicts fuel).conflictHistory.length ≤ m := by
  induction conflicts generalizing r with
  | nil => exact h
  | cons c cs ih =>
    rw [runResolutions_cons]
    rcases hres : resolveConflict 0 c fuel r with _ | ⟨r2, out⟩
    · exact ih r hm h
    · obtain ⟨hlen, hcfg⟩ := resolveConflict_preserves_bound 0 c m fuel r hm h r2 out hres
      exact ih r2 (by rw [hcfg]; exact hm) hlen

/-- Claim C6 (amended): the resolution history is bounded only when the
undocumented `maxHistoryLength` option is passed to the constructor: for a
resolver built with `maxHistoryLength = m`, every sequence of `resolveConflict`
calls keeps the history length at most `m` (oldest entry evicted first); with
the constructor defaults the comparison against the undefined bound never
fires and the history grows without limit. -/
theorem resolutionHistory_bounded_when_configured (input : ResolverConfigInput) (m : Nat)
    (hm : input.maxHistoryLength = some m) (conflicts : List Conflict) (fuel : Nat) :
    (runResolutions (mkConflictResolver input) conflicts fuel).conflictHistory.length ≤ m := by
  apply runResolutions_preserves_bound
  · simpa [mkConflictResolver, mkResolverConfig] using hm
  · simp [mkConflictResolver]

/-- Claim C6 amended witness: with `maxHistoryLength = 2`, five resolutions
leave at most two history records. -/
theorem resolutionHistory_bounded_when_configured_witness :
    (runResolutions (mkConflictResolver { maxHistoryLength := some 2 })
        (List.replicate 5 plainConflict) 1).conflictHistory.length ≤ 2 :=
  resolutionHistory_bounded_when_configured { maxHistoryLength := some 2 } 2 rfl
    (List.replicate 5 plainConflict) 1
